import Mathlib

/-!
# Verification of the loga storage layer (entry format + journal writer)

Shallow embedding of `src/lib/storage/src` (the authoritative revision: it is
the one wired up by `entry/mod.rs`, namely `error.rs`, `header.rs`,
`impls_v1.rs`, `util.rs`, `util/mod.rs`, `journal/writer.rs`).

Modelling conventions:
* Bytes are `Nat` (in the source always `u8`, i.e. `< 256`); byte buffers are
  `List Nat`.  `usize` is modelled as `Nat`, `i64`/`i32` as `Int` via
  two's-complement conversion at the 8/4-byte boundary.
* All `read_at`-style functions in the source write a contiguous prefix
  `buf[0..n]` of the destination and return `n`.  The embedding therefore
  returns the list of bytes written (whose length is the returned count) and
  takes the destination length `bufLen` as a parameter.
* Fallible Rust code returns `Outcome`: `ok`, `err` (a `Result::Err` carrying
  the `Error` enum of `entry/error.rs`) or `panicked` (an `unwrap`/`expect`/
  out-of-bounds abort, with the source's panic message).
* Rust loops that are not structurally recursive are given explicit fuel so
  that every definition stays executable by kernel reduction; the fuel chosen
  at each call site is provably sufficient.
-/

set_option maxRecDepth 100000
set_option maxHeartbeats 1000000

/-! ## Varints (prost length delimiters)

`prost::encode_length_delimiter` emits the standard base-128 varint of a
`usize`: low 7 bits first, continuation bit `0x80` on every byte but the last.
`prost::decode_length_delimiter` reads it back.  `prost::length_delimiter_len`
is the byte length of that varint. -/

/-- One encoding step per fuel unit; `encodeVarint` supplies enough fuel for
any `Nat`.  With fuel `0` the remaining digits are dropped (never reached at
the call sites used here, see `decodeVarint_encodeVarint`). -/
def encodeVarintFuel : Nat → Nat → List Nat
  | 0, _ => []
  | fuel + 1, n => if n < 128 then [n] else (n % 128 + 128) :: encodeVarintFuel fuel (n / 128)

/-- The base-128 varint of `n` (models `prost::encode_length_delimiter`). -/
def encodeVarint (n : Nat) : List Nat :=
  encodeVarintFuel (n + 1) n

/-- Models `prost::length_delimiter_len`: the byte length of the varint. -/
def length_delimiter_len (n : Nat) : Nat :=
  (encodeVarint n).length

/-- Models `prost::decode_length_delimiter` on a byte list: returns the decoded
value and the remaining bytes, or `none` on a truncated varint. -/
def decodeVarint : List Nat → Option (Nat × List Nat)
  | [] => none
  | b :: rest =>
    if b < 128 then some (b, rest)
    else
      match decodeVarint rest with
      | some (n, rest') => some (b % 128 + 128 * n, rest')
      | none => none

theorem decodeVarint_encodeVarintFuel :
    ∀ fuel n tail, 0 < fuel → n < 128 ^ fuel →
      decodeVarint (encodeVarintFuel fuel n ++ tail) = some (n, tail) := by
  intro fuel
  induction fuel with
  | zero => intro n tail h; omega
  | succ f ih =>
    intro n tail _ hn
    by_cases h : n < 128
    · simp [encodeVarintFuel, decodeVarint, h]
    · have hf : 0 < f := by
        rcases Nat.eq_zero_or_pos f with hf0 | hf0
        · subst hf0; simp at hn; omega
        · exact hf0
      have hdiv : n / 128 < 128 ^ f := by
        rw [Nat.div_lt_iff_lt_mul (by omega)]
        calc n < 128 ^ (f + 1) := hn
        _ = 128 ^ f * 128 := by rw [Nat.pow_succ]
      have hb : ¬ (n % 128 + 128 < 128) := by omega
      simp only [encodeVarintFuel, if_neg h, List.cons_append, decodeVarint, if_neg hb,
        ih (n / 128) tail hf hdiv]
      have h1 : (n % 128 + 128) % 128 + 128 * (n / 128) = n := by omega
      rw [h1]

theorem decodeVarint_encodeVarint (n : Nat) (tail : List Nat) :
    decodeVarint (encodeVarint n ++ tail) = some (n, tail) := by
  apply decodeVarint_encodeVarintFuel (n + 1) n tail (by omega)
  calc n < 2 ^ n := Nat.lt_two_pow n
  _ ≤ 128 ^ n := Nat.pow_le_pow_left (by omega) n
  _ ≤ 128 ^ (n + 1) := Nat.pow_le_pow_right (by omega) (by omega)

theorem encodeVarint_ne_nil (n : Nat) : encodeVarint n ≠ [] := by
  unfold encodeVarint encodeVarintFuel
  by_cases h : n < 128 <;> simp [h]

theorem length_delimiter_len_pos (n : Nat) : 0 < length_delimiter_len n := by
  unfold length_delimiter_len
  cases h : encodeVarint n with
  | nil => exact absurd h (encodeVarint_ne_nil n)
  | cons b rest => simp

/-! ## Errors, panics, magic -/

/-- The `Error` enum of `entry/error.rs` (note: it has no `KVNotFound`
variant). -/
inductive EntryError where
  | invalidMagic
  | decodeBufNotEnough
  | prostEncode
  | prostDecode
  deriving DecidableEq, Repr

/-- Result of running a piece of Rust code that may return `Err` or panic. -/
inductive Outcome (α : Type) where
  | ok : α → Outcome α
  | err : EntryError → Outcome α
  | panicked : String → Outcome α
  deriving DecidableEq, Repr

/-- The `Magic` enum of `entry/util.rs`. -/
inductive Magic where
  | V1
  deriving DecidableEq, Repr

/-- Models `u8::from(magic)`. -/
def Magic.toByte : Magic → Nat
  | .V1 => 1

/-- Models `Magic::try_from(u8)`: `0x01` maps to `V1`, anything else is
`Error::InvalidMagic`. -/
def Magic.tryFrom (b : Nat) : Outcome Magic :=
  if b = 1 then .ok .V1 else .err .invalidMagic

/-! ## Byte-copy primitives

`util/mod.rs::copy_slice(src, dst)` copies `min(src.len, dst.len)` bytes of
`src` into the prefix of `dst` and returns the count.  In the written-bytes
view the result is `src.take dstLen`. -/

/-- Bytes written by `copy_slice` into a destination of length `dstLen`. -/
def copy_slice (src : List Nat) (dstLen : Nat) : List Nat :=
  src.take dstLen

/-- One stage of the `customize_copy_slice_with_multi_stage!` macro
(`entry/util.rs`).  State is `(stage_offset, written)`, where `written` is the
prefix of the destination filled so far (`n = written.length`) for a
destination of length `bufLen`.  `tmpOf offset avail` is the result of the
macro's `$custom_copy` expression given the current stage offset and the free
space `buf.len() - n`.  The macro's early `return n` is modelled by the
leading full-buffer test: once the buffer is full no later stage changes the
written bytes, which is all the function returns. -/
def custom_stage (tmpOf : Nat → Nat → List Nat) (srcLen bufLen : Nat)
    (st : Nat × List Nat) : Nat × List Nat :=
  if st.2.length = bufLen then st
  else if st.1 < srcLen then
    let tmp := tmpOf st.1 (bufLen - st.2.length)
    if st.2.length + tmp.length = bufLen then (st.1, st.2 ++ tmp)
    else (st.1 + tmp.length - srcLen, st.2 ++ tmp)
  else (st.1 - srcLen, st.2)

/-- One stage of the `copy_slice_with_multi_stage!` macro: the custom copy is
`copy_slice(&src[stage_offset..], &mut buf[n..])`. -/
def ms_stage (src : List Nat) (bufLen : Nat) (st : Nat × List Nat) : Nat × List Nat :=
  custom_stage (fun offset avail => copy_slice (src.drop offset) avail) src.length bufLen st

/-! ## Header (`entry/header.rs`) -/

/-- A length-delimited key/value unit. -/
structure Header where
  key : List Nat
  value : List Nat
  deriving DecidableEq, Repr

/-- Models `Header::binary_size`. -/
def Header.binary_size (h : Header) : Nat :=
  length_delimiter_len h.key.length + h.key.length + h.value.length

/-- Models `Header::encode`: key-length delimiter, key bytes, value bytes. -/
def Header.encode (h : Header) : List Nat :=
  encodeVarint h.key.length ++ h.key ++ h.value

/-- Models `Header::decode` on a window of exactly the header's total size: the
key-length varint, `key_len` key bytes, and **all remaining bytes** as value.
`copy_to_bytes` past the end of the buffer is a panic in the `bytes` crate. -/
def Header.decode (buf : List Nat) : Outcome Header :=
  match decodeVarint buf with
  | none => .err .prostDecode
  | some (key_len, rest) =>
    if key_len ≤ rest.length then .ok ⟨rest.take key_len, rest.drop key_len⟩
    else .panicked "cannot advance by key_len bytes"

/-- Models `Header::read_at(buf, offset)`: three stages over the serialized form
(delimiter, key, value).  Note the first stage reproduces the source exactly:
its custom copy is `copy_slice(&key_len_delimiter_getter(), &mut buf[n..])`,
which copies the delimiter **from its start**, ignoring the current stage
offset. -/
def Header.read_at (h : Header) (bufLen offset : Nat) : List Nat :=
  let key_len := h.key.length
  let key_len_size := length_delimiter_len key_len
  let st1 := custom_stage (fun _ avail => copy_slice (encodeVarint key_len) avail)
    key_len_size bufLen (offset, [])
  let st2 := ms_stage h.key bufLen st1
  let st3 := ms_stage h.value bufLen st2
  st3.2

/-! ## Entry V1 (`entry/impls_v1.rs`) -/

/-- Models `COMMON_HEADER_BINARY_SIZE`. -/
def COMMON_HEADER_BINARY_SIZE : Nat := 29

/-- The V1 entry: a 29-byte common header, auxiliary headers, and the kv
header. -/
structure EntryV1 where
  common_header : List Nat
  headers : List Header
  kv : Header
  deriving DecidableEq, Repr

/-- Models `EntryV1::binary_size`: starts at 29, adds delimiter length plus size for
each auxiliary header, then for the kv header. -/
def EntryV1.binary_size (e : EntryV1) : Nat :=
  (e.headers.foldl
    (fun size h => size + length_delimiter_len h.binary_size + h.binary_size)
    COMMON_HEADER_BINARY_SIZE)
  + length_delimiter_len e.kv.binary_size + e.kv.binary_size

/-- One framed header occurrence inside an entry: its size delimiter followed
by its encoded bytes (the loop body of `EntryV1::encode`). -/
def framedHeader (h : Header) : List Nat :=
  encodeVarint h.binary_size ++ h.encode

/-- Models `EntryV1::encode`: common header verbatim, framed auxiliary headers in
order, framed kv header last. -/
def EntryV1.encode (e : EntryV1) : List Nat :=
  e.common_header ++ (e.headers.map framedHeader).flatten ++ framedHeader e.kv

/-- The `while buf.has_remaining()` loop of `EntryV1::decode_without_magic`:
read a size delimiter, hand `Header::decode` a window of exactly that many
bytes (`buf.take(length)`), repeat.  One fuel unit per iteration; each
iteration consumes at least the delimiter byte, so `buf.length + 1` fuel is
always enough. -/
def decodeHeadersFuel : Nat → List Nat → Outcome (List Header)
  | 0, _ => .err .prostDecode
  | fuel + 1, buf =>
    if buf.isEmpty then .ok []
    else
      match decodeVarint buf with
      | none => .err .prostDecode
      | some (length, rest) =>
        match Header.decode (rest.take length) with
        | .ok h =>
          match decodeHeadersFuel fuel (rest.drop length) with
          | .ok tl => .ok (h :: tl)
          | .err er => .err er
          | .panicked msg => .panicked msg
        | .err er => .err er
        | .panicked msg => .panicked msg

/-- All headers of the entry payload, in order. -/
def decodeHeaders (buf : List Nat) : Outcome (List Header) :=
  decodeHeadersFuel (buf.length + 1) buf

/-- Models `EntryV1::decode_without_magic`: rebuild the common header from the
already-consumed magic byte plus 28 verbatim bytes (`copy_to_slice` panics if
fewer remain), decode headers until the buffer is exhausted, then `pop` the
last one as kv — `.expect("missing kv field in entry")` panics when no header
was present. -/
def EntryV1.decode_without_magic (m : Magic) (buf : List Nat) : Outcome EntryV1 :=
  if buf.length < 28 then .panicked "cannot advance by 28 bytes"
  else
    match decodeHeaders (buf.drop 28) with
    | .ok hs =>
      match hs.getLast? with
      | none => .panicked "missing kv field in entry"
      | some kv => .ok ⟨Magic.toByte m :: buf.take 28, hs.dropLast, kv⟩
    | .err er => .err er
    | .panicked msg => .panicked msg

/-- Models `entry/mod.rs::decode`: read the magic byte (`get_u8` panics on an empty
buffer), dispatch on it, and let V1 decode the rest. -/
def decode (buf : List Nat) : Outcome EntryV1 :=
  match buf with
  | [] => .panicked "cannot advance by 1 byte"
  | b :: rest =>
    match Magic.tryFrom b with
    | .ok m => EntryV1.decode_without_magic m rest
    | .err er => .err er
    | .panicked msg => .panicked msg

/-! ### Accessors (`impl Entry for EntryV1`) -/

/-- Little-endian value of a byte list (least significant byte first). -/
def leNat : List Nat → Nat
  | [] => 0
  | b :: rest => b + 256 * leNat rest

/-- Models `i64::from_le_bytes` on 8 bytes, two's complement. -/
def i64_from_le (bs : List Nat) : Int :=
  let n := leNat bs
  if n < 2 ^ 63 then (n : Int) else (n : Int) - 2 ^ 64

/-- Models `i32::from_le_bytes` on 4 bytes, two's complement. -/
def i32_from_le (bs : List Nat) : Int :=
  let n := leNat bs
  if n < 2 ^ 31 then (n : Int) else (n : Int) - 2 ^ 32

/-- Models `EntryV1::get_i64_from_common_header(offset)`. -/
def EntryV1.get_i64_from_common_header (e : EntryV1) (offset : Nat) : Int :=
  i64_from_le ((e.common_header.drop offset).take 8)

/-- Models `EntryV1::get_i32_from_common_header(offset)`. -/
def EntryV1.get_i32_from_common_header (e : EntryV1) (offset : Nat) : Int :=
  i32_from_le ((e.common_header.drop offset).take 4)

/-- Models `EntryV1::magic`: `Magic::try_from(common_header[0]).expect("invalid magic")`. -/
def EntryV1.magic (e : EntryV1) : Outcome Magic :=
  match Magic.tryFrom (e.common_header.getD 0 0) with
  | .ok m => .ok m
  | _ => .panicked "invalid magic"

/-- Models `EntryV1::attr` (offset 1). -/
def EntryV1.attr (e : EntryV1) : Int :=
  e.get_i32_from_common_header 1

/-- Models `EntryV1::log_id` (offset 5). -/
def EntryV1.log_id (e : EntryV1) : Int :=
  e.get_i64_from_common_header 5

/-- Models `EntryV1::entry_id` (offset 13). -/
def EntryV1.entry_id (e : EntryV1) : Int :=
  e.get_i64_from_common_header 13

/-- Models `EntryV1::last_confirm_id` (offset 21). -/
def EntryV1.last_confirm_id (e : EntryV1) : Int :=
  e.get_i64_from_common_header 21

/-! ### The resumable encoder `EntryV1::read_at` -/

/-- Second stage of `EntryV1::read_at_header`: the header's own bytes via
`Header::read_at(&mut buf[n..], offset)`, then skip the header region. -/
def read_at_header_stage2 (header : Header) (header_size offset bufLen : Nat)
    (out : List Nat) : Nat × List Nat :=
  if offset < header_size then
    let tmp := header.read_at (bufLen - out.length) offset
    let out1 := out ++ tmp
    if out1.length = bufLen then (offset, out1)
    else (offset + tmp.length - header_size, out1)
  else (offset - header_size, out)

/-- Models `EntryV1::read_at_header`: first the header-size delimiter — here the
source does slice the freshly encoded delimiter at the stage offset
(`&tmp_storage[offset..]`) — then the header bytes.  Returns the running
stage offset and the bytes written so far. -/
def read_at_header (header : Header) (offset bufLen : Nat) (out : List Nat) :
    Nat × List Nat :=
  let header_size := header.binary_size
  let size_of_header_size_delimiter := length_delimiter_len header_size
  if offset < size_of_header_size_delimiter then
    let tmp := copy_slice ((encodeVarint header_size).drop offset) (bufLen - out.length)
    let out1 := out ++ tmp
    if out1.length = bufLen then (offset, out1)
    else read_at_header_stage2 header header_size
      (offset + tmp.length - size_of_header_size_delimiter) bufLen out1
  else read_at_header_stage2 header header_size
    (offset - size_of_header_size_delimiter) bufLen out

/-- The header loop of `EntryV1::read_at`: `read_at_header` across every
auxiliary header (returning as soon as the buffer fills), then the kv
header. -/
def read_headers_loop : List Header → Header → Nat → Nat → List Nat → List Nat
  | [], kv, offset, bufLen, out => (read_at_header kv offset bufLen out).2
  | h :: rest, kv, offset, bufLen, out =>
    let st := read_at_header h offset bufLen out
    if st.2.length = bufLen then st.2
    else read_headers_loop rest kv st.1 bufLen st.2

/-- Models `EntryV1::read_at(buf, offset)`: common-header region first
(`copy_slice(&common_header[offset..], buf)`), then the header regions. -/
def EntryV1.read_at (e : EntryV1) (bufLen offset : Nat) : List Nat :=
  if offset < COMMON_HEADER_BINARY_SIZE then
    let tmp := copy_slice (e.common_header.drop offset) bufLen
    if tmp.length = bufLen then tmp
    else read_headers_loop e.headers e.kv
      (offset + tmp.length - COMMON_HEADER_BINARY_SIZE) bufLen tmp
  else read_headers_loop e.headers e.kv (offset - COMMON_HEADER_BINARY_SIZE) bufLen []

/-! ## Builder (`BuilderV1`) -/

/-- Write `src` over `dst[offset .. offset + src.length]` (the builder always
passes a window of exactly `src.length` bytes to `copy_slice`). -/
def set_slice (dst : List Nat) (offset : Nat) (src : List Nat) : List Nat :=
  dst.take offset ++ src ++ dst.drop (offset + src.length)

/-- The `k` little-endian bytes of `n` (models `to_le_bytes`). -/
def natToLeBytes : Nat → Nat → List Nat
  | 0, _ => []
  | k + 1, n => n % 256 :: natToLeBytes k (n / 256)

/-- Models `i64::to_le_bytes`, two's complement. -/
def i64_to_le_bytes (v : Int) : List Nat :=
  natToLeBytes 8 (v.emod (2 ^ 64)).toNat

/-- Models `i32::to_le_bytes`, two's complement. -/
def i32_to_le_bytes (v : Int) : List Nat :=
  natToLeBytes 4 (v.emod (2 ^ 32)).toNat

/-- The fluent builder of `impls_v1.rs`. -/
structure BuilderV1 where
  common_header : List Nat
  kv : Option Header
  headers : List Header
  deriving DecidableEq, Repr

/-- Models `BuilderV1::new`: a zeroed 29-byte common header whose magic byte is set
to `Magic::V1`. -/
def BuilderV1.new : BuilderV1 :=
  ⟨1 :: List.replicate 28 0, none, []⟩

/-- Models `BuilderV1::attr` (i32 at offset 1). -/
def BuilderV1.attr (b : BuilderV1) (attr : Int) : BuilderV1 :=
  { b with common_header := set_slice b.common_header 1 (i32_to_le_bytes attr) }

/-- Models `BuilderV1::log_id` (i64 at offset 5). -/
def BuilderV1.log_id (b : BuilderV1) (v : Int) : BuilderV1 :=
  { b with common_header := set_slice b.common_header 5 (i64_to_le_bytes v) }

/-- Models `BuilderV1::entry_id` (i64 at offset 13). -/
def BuilderV1.entry_id (b : BuilderV1) (v : Int) : BuilderV1 :=
  { b with common_header := set_slice b.common_header 13 (i64_to_le_bytes v) }

/-- Models `BuilderV1::last_confirm_id` (i64 at offset 21). -/
def BuilderV1.last_confirm_id (b : BuilderV1) (v : Int) : BuilderV1 :=
  { b with common_header := set_slice b.common_header 21 (i64_to_le_bytes v) }

/-- Models `BuilderV1::kv`. -/
def BuilderV1.kv_set (b : BuilderV1) (key value : List Nat) : BuilderV1 :=
  { b with kv := some ⟨key, value⟩ }

/-- Models `BuilderV1::header`. -/
def BuilderV1.header (b : BuilderV1) (h : Header) : BuilderV1 :=
  { b with headers := b.headers ++ [h] }

/-- Models `BuilderV1::build`: `self.kv.expect("missing kv field in entry")`. -/
def BuilderV1.build (b : BuilderV1) : Outcome EntryV1 :=
  match b.kv with
  | none => .panicked "missing kv field in entry"
  | some kv => .ok ⟨b.common_header, b.headers, kv⟩

/-- Models `Outcome.getD`: the ok value, or the fallback. -/
def Outcome.getD {α : Type} (o : Outcome α) (d : α) : α :=
  match o with
  | .ok a => a
  | _ => d

/-! ## CRC-32 (Castagnoli / iSCSI) and the journal writer (`journal/writer.rs`)

The writer uses the `crc` crate's `CRC_32_ISCSI`: reflected polynomial
`0x82F63B78`, initial value `0xFFFFFFFF`, output xor `0xFFFFFFFF`.  The
bit-at-a-time form of that standard algorithm is embedded here as the
semantics of the external crate. -/

/-- Runs `k` rounds of the reflected CRC shift/conditional-xor step. -/
def crcShift : Nat → Nat → Nat
  | 0, x => x
  | k + 1, x => crcShift k (if x % 2 = 1 then (x / 2) ^^^ 0x82F63B78 else x / 2)

/-- CRC-32C of a byte list. -/
def crc32c (data : List Nat) : Nat :=
  0xFFFFFFFF ^^^ data.foldl (fun crc b => crcShift 8 (crc ^^^ b)) 0xFFFFFFFF

/-- Models `JournalEntryContext::get_checksum`.  In the source the digest is created
in `new()` and `finalize`d on first access, but `digest.update` is never
called anywhere, so the four little-endian checksum bytes are the CRC-32C of
zero bytes — independent of the entry (hence the unused parameter). -/
def JournalEntryContext.get_checksum (_e : EntryV1) : List Nat :=
  natToLeBytes 4 (crc32c [])

/-- Models `JournalEntryContext::read_at`: three regions — the entry-size delimiter
(whose custom copy is `copy_slice(&sz_size_getter(), &mut buf[n..])`, again
copying the delimiter **from its start** regardless of the stage offset), the
entry via `entry.read_at(&mut buf[n..], offset)`, and the checksum bytes
sliced at the remaining offset (`&self.get_checksum()[offset..]`, no macro,
no early return). -/
def JournalEntryContext.read_at (e : EntryV1) (bufLen offset : Nat) : List Nat :=
  let sz := e.binary_size
  let sz_size := length_delimiter_len sz
  let st1 := custom_stage (fun _ avail => copy_slice (encodeVarint sz) avail)
    sz_size bufLen (offset, [])
  let st2 := custom_stage (fun off avail => e.read_at avail off) sz bufLen st1
  st2.2 ++ copy_slice ((JournalEntryContext.get_checksum e).drop st2.1) (bufLen - st2.2.length)

/-- Models `JournalWriterImpl` state.  `pending` is `buffer[0..offset)` for a backing
buffer of fixed length `cap` (the sink `file` is modelled as the list of bytes
written so far; writes never fail). -/
structure WriterState where
  cap : Nat
  pending : List Nat
  sink : List Nat
  size : Nat
  deriving DecidableEq, Repr

/-- Models `JournalWriterImpl::flush`: write `buffer[0..offset)` to the sink, reset
the cursor. -/
def WriterState.flush (w : WriterState) : WriterState :=
  { w with sink := w.sink ++ w.pending, pending := [] }

/-- The `append_entry` loop: flush when the buffer is full, then
`append_entry_into_buffer` (one `context.read_at` into `buffer[offset..]`,
advancing cursor, lifetime size and entry offset), stopping when a call
transfers zero bytes.  One fuel unit per loop iteration. -/
def append_entry_loop (e : EntryV1) : Nat → Nat → WriterState → WriterState
  | 0, _, w => w
  | fuel + 1, offset, w =>
    let w1 := if w.pending.length = w.cap then w.flush else w
    let chunk := JournalEntryContext.read_at e (w1.cap - w1.pending.length) offset
    let w2 := { w1 with pending := w1.pending ++ chunk, size := w1.size + chunk.length }
    if chunk.length = 0 then w2
    else append_entry_loop e fuel (offset + chunk.length) w2

/-- Models `JournalWriterImpl::append_entry`. -/
def append_entry (e : EntryV1) (fuel : Nat) (w : WriterState) : WriterState :=
  append_entry_loop e fuel 0 w

/-! ## The resumable-read protocol (the `read_all` test loop of
`entry/mod.rs`): call `read_at` with a buffer of length `s`, advance the
offset by the returned count, stop at the first zero-byte call, and
concatenate everything read. -/

/-- Chunks concatenated by repeatedly calling `EntryV1::read_at` with buffer
length `s` from `offset`, with one fuel unit per call. -/
def readAllSteps (e : EntryV1) (s : Nat) : Nat → Nat → List Nat
  | 0, _ => []
  | fuel + 1, offset =>
    let chunk := e.read_at s offset
    if chunk.length = 0 then []
    else chunk ++ readAllSteps e s fuel (offset + chunk.length)

/-! ## Supporting lemmas -/

theorem Header.encode_length (h : Header) : h.encode.length = h.binary_size := by
  simp [Header.encode, Header.binary_size, length_delimiter_len]
  omega

theorem Header.decode_encode (h : Header) : Header.decode h.encode = .ok h := by
  unfold Header.decode Header.encode
  rw [List.append_assoc, decodeVarint_encodeVarint]
  simp

theorem framedHeader_length (h : Header) :
    (framedHeader h).length = length_delimiter_len h.binary_size + h.binary_size := by
  simp [framedHeader, length_delimiter_len, Header.encode_length]

theorem framedHeader_ne_nil (h : Header) : framedHeader h ≠ [] := by
  unfold framedHeader
  intro hcontra
  exact encodeVarint_ne_nil h.binary_size (List.append_eq_nil.mp hcontra).1

theorem decodeHeadersFuel_framed :
    ∀ (hs : List Header) (fuel : Nat),
      ((hs.map framedHeader).flatten).length < fuel →
      decodeHeadersFuel fuel ((hs.map framedHeader).flatten) = .ok hs := by
  intro hs
  induction hs with
  | nil =>
    intro fuel hf
    cases fuel with
    | zero => simp at hf
    | succ f => simp [decodeHeadersFuel]
  | cons h rest ih =>
    intro fuel hf
    cases fuel with
    | zero => simp at hf
    | succ f =>
      have hne : framedHeader h ≠ [] := framedHeader_ne_nil h
      have hflat : ((h :: rest).map framedHeader).flatten
          = framedHeader h ++ (rest.map framedHeader).flatten := by
        simp
      rw [hflat] at hf ⊢
      have hempty : (framedHeader h ++ (rest.map framedHeader).flatten).isEmpty = false := by
        cases hfh : framedHeader h with
        | nil => exact absurd hfh hne
        | cons b bs => simp [hfh]
      rw [decodeHeadersFuel, if_neg (by simp [hempty])]
      have hshape : framedHeader h ++ (rest.map framedHeader).flatten
          = encodeVarint h.binary_size ++ (h.encode ++ (rest.map framedHeader).flatten) := by
        simp [framedHeader]
      rw [hshape, decodeVarint_encodeVarint]
      dsimp only
      have htake : (h.encode ++ (rest.map framedHeader).flatten).take h.binary_size
          = h.encode := by
        rw [← Header.encode_length h]
        exact List.take_left h.encode _
      have hdrop : (h.encode ++ (rest.map framedHeader).flatten).drop h.binary_size
          = (rest.map framedHeader).flatten := by
        rw [← Header.encode_length h]
        exact List.drop_left h.encode _
      rw [htake, Header.decode_encode, hdrop]
      have hfr : 0 < (framedHeader h).length := by
        cases hfh : framedHeader h with
        | nil => exact absurd hfh hne
        | cons b bs => simp
      rw [ih f (by simp at hf ⊢; omega)]

theorem decodeHeaders_framed (hs : List Header) :
    decodeHeaders ((hs.map framedHeader).flatten) = .ok hs :=
  decodeHeadersFuel_framed hs _ (Nat.lt_succ_self _)

theorem binary_size_foldl (l : List Header) (acc : Nat) :
    l.foldl (fun size h => size + length_delimiter_len h.binary_size + h.binary_size) acc
      = acc + (l.map (fun h => length_delimiter_len h.binary_size + h.binary_size)).sum := by
  induction l generalizing acc with
  | nil => simp
  | cons h t ih => simp [List.foldl_cons, ih]; omega

/-! ## Concrete inputs used by the claim theorems -/

/-- The key/value header of the spec's end-to-end scenario:
`("key", "value")` as bytes. -/
def hkv : Header := ⟨[107, 101, 121], [118, 97, 108, 117, 101]⟩

/-- The §8 end-to-end builder chain: `log_id=1, entry_id=2, attr=default,
last_confirm_id=3, kv=("key","value"), headers=[("key","value")]`. -/
def builder49 : BuilderV1 :=
  (((((BuilderV1.new.log_id 1).entry_id 2).attr 0).last_confirm_id 3).kv_set
    hkv.key hkv.value).header hkv

/-- The entry built by `builder49`. -/
def entry49 : EntryV1 :=
  builder49.build.getD ⟨[], [], ⟨[], []⟩⟩

/-- A header whose key is 128 bytes long, so its key-length delimiter takes
two bytes (`0x80 0x01`). -/
def h128 : Header := ⟨List.replicate 128 0, []⟩

/-- An entry whose kv header is `h128`: `binary_size = 29 + 2 + 130 = 161`. -/
def e161 : EntryV1 := ⟨1 :: List.replicate 28 0, [], h128⟩

/-- An entry of binary size `29 + 1 + 99 = 129 ≥ 128`, so its entry-size
delimiter takes two bytes (`0x81 0x01`); all its key delimiters are one
byte. -/
def e129 : EntryV1 := ⟨1 :: List.replicate 28 0, [], ⟨[], List.replicate 98 7⟩⟩

/-- A fresh journal writer whose backing buffer has capacity 1. -/
def writerCap1 : WriterState := ⟨1, [], [], 0⟩

/-! ## Claim theorems -/

/-- C5: for every constructed entry (29-byte common header whose magic byte is
`0x01`, as `BuilderV1` guarantees), decoding the bytes produced by
`encode` succeeds and returns an entry equal to the original — in particular
magic, attr, log_id, entry_id, last_confirm_id, key, value and the auxiliary
headers (in order) are identical. -/
theorem decode_cons_one (rest : List Nat) :
    decode (1 :: rest) = EntryV1.decode_without_magic .V1 rest := rfl

theorem c5_decode_encode_roundtrip (e : EntryV1)
    (h29 : e.common_header.length = 29)
    (hmagic : e.common_header.getD 0 0 = 1) :
    decode e.encode = .ok e := by
  cases hc : e.common_header with
  | nil => rw [hc] at h29; simp at h29
  | cons b t =>
    have hb : b = 1 := by rw [hc] at hmagic; simpa using hmagic
    subst hb
    have ht : t.length = 28 := by rw [hc] at h29; simpa using h29
    have henc : e.encode
        = 1 :: (t ++ ((e.headers ++ [e.kv]).map framedHeader).flatten) := by
      simp [EntryV1.encode, hc, List.append_assoc]
    rw [henc, decode_cons_one]
    unfold EntryV1.decode_without_magic
    rw [if_neg (by rw [List.length_append, ht]; omega)]
    have htake : (t ++ ((e.headers ++ [e.kv]).map framedHeader).flatten).take 28 = t :=
      List.take_left' ht
    have hdrop : (t ++ ((e.headers ++ [e.kv]).map framedHeader).flatten).drop 28
        = ((e.headers ++ [e.kv]).map framedHeader).flatten :=
      List.drop_left' ht
    rw [htake, hdrop, decodeHeaders_framed]
    dsimp only
    rw [List.getLast?_concat, List.dropLast_concat]
    dsimp only [Magic.toByte]
    rw [← hc]

/-- Closed instance of `c5_decode_encode_roundtrip` at the §8 entry. -/
theorem c5_decode_encode_roundtrip_witness : decode entry49.encode = .ok entry49 :=
  c5_decode_encode_roundtrip entry49 (by decide) (by decide)

/-- C6: for every entry (with its fixed 29-byte common header), the encoded
byte count equals `binary_size()`, and `binary_size()` is 29 plus, over
(auxiliary headers ++ [kv]), each header's delimiter length plus its binary
size. -/
theorem c6_size_consistency (e : EntryV1) (h29 : e.common_header.length = 29) :
    e.encode.length = e.binary_size ∧
    e.binary_size = 29 + ((e.headers ++ [e.kv]).map
      (fun h => length_delimiter_len h.binary_size + h.binary_size)).sum := by
  have hbs : e.binary_size = 29 + ((e.headers ++ [e.kv]).map
      (fun h => length_delimiter_len h.binary_size + h.binary_size)).sum := by
    unfold EntryV1.binary_size COMMON_HEADER_BINARY_SIZE
    rw [binary_size_foldl]
    simp
    omega
  refine ⟨?_, hbs⟩
  rw [hbs]
  have hcomp : List.length ∘ framedHeader
      = fun h => length_delimiter_len h.binary_size + h.binary_size := by
    funext h
    exact framedHeader_length h
  simp [EntryV1.encode, List.length_flatten, List.map_map, hcomp,
    framedHeader_length, h29]

/-- Closed instance of `c6_size_consistency` at the §8 entry. -/
theorem c6_size_consistency_witness :
    entry49.encode.length = entry49.binary_size ∧
    entry49.binary_size = 29 + ((entry49.headers ++ [entry49.kv]).map
      (fun h => length_delimiter_len h.binary_size + h.binary_size)).sum :=
  c6_size_consistency entry49 (by decide)

/-- C8: decoding any buffer whose first byte is not `0x01` fails with
`InvalidMagic`; the result does not depend on the remaining bytes and no
unknown byte is mapped to a default version. -/
theorem c8_rejects_bad_magic (b : Nat) (rest : List Nat) (hb : b ≠ 1) :
    decode (b :: rest) = .err .invalidMagic := by
  simp [decode, Magic.tryFrom, hb]

/-- Closed instance of `c8_rejects_bad_magic` at first byte `0x00`. -/
theorem c8_rejects_bad_magic_witness : decode (0 :: [1, 2, 3]) = .err .invalidMagic :=
  c8_rejects_bad_magic 0 [1, 2, 3] (by decide)

/-- C10: an entry built after calling only the kv setter has magic `V1` and
zero attr, log_id, entry_id and last_confirm_id, because the builder
zero-initializes the common header and sets only the magic byte. -/
theorem c10_builder_defaults (key value : List Nat) :
    (BuilderV1.new.kv_set key value).build
        = .ok ⟨1 :: List.replicate 28 0, [], ⟨key, value⟩⟩ ∧
    EntryV1.magic ⟨1 :: List.replicate 28 0, [], ⟨key, value⟩⟩ = .ok .V1 ∧
    EntryV1.attr ⟨1 :: List.replicate 28 0, [], ⟨key, value⟩⟩ = 0 ∧
    EntryV1.log_id ⟨1 :: List.replicate 28 0, [], ⟨key, value⟩⟩ = 0 ∧
    EntryV1.entry_id ⟨1 :: List.replicate 28 0, [], ⟨key, value⟩⟩ = 0 ∧
    EntryV1.last_confirm_id ⟨1 :: List.replicate 28 0, [], ⟨key, value⟩⟩ = 0 :=
  ⟨rfl, rfl, rfl, rfl, rfl, rfl⟩

/-- C3 (counterexample): decoding a buffer that is exactly the 29-byte common
header does not fail with a recoverable error — it panics with
"missing kv field in entry" (`headers.pop().expect(..)`); the `Error` enum of
`entry/error.rs` has no `KVNotFound` variant at all. -/
theorem c3_headerless_counterexample :
    decode (1 :: List.replicate 28 0) = .panicked "missing kv field in entry" := by
  decide

/-- C3 (amended): decoding any buffer consisting of only the 29-byte common
header (magic byte `0x01` plus 28 further bytes) panics with
"missing kv field in entry"; decode-time absence of the kv header is a panic,
not a recoverable error. -/
theorem c3_headerless_panics (tail : List Nat) (h28 : tail.length = 28) :
    decode (1 :: tail) = .panicked "missing kv field in entry" := by
  rw [decode_cons_one]
  unfold EntryV1.decode_without_magic
  rw [if_neg (by omega)]
  have hd : tail.drop 28 = [] := by
    rw [← h28]
    exact List.drop_length tail
  rw [hd]
  rfl

/-- Closed instance of `c3_headerless_panics` at a common header with
non-zero field bytes. -/
theorem c3_headerless_panics_witness :
    decode (1 :: List.replicate 28 5) = .panicked "missing kv field in entry" :=
  c3_headerless_panics (List.replicate 28 5) (by decide)

/-- C9 (counterexample): the §8 entry builds successfully, but its
`binary_size()` is not 64. -/
theorem c9_binary_size_counterexample :
    builder49.build = .ok entry49 ∧ entry49.binary_size ≠ 64 := by
  decide

/-- C9 (amended): the §8 entry has `binary_size() = 49`, which is
`29 + (1 + (1 + 3 + 5)) + (1 + (1 + 3 + 5))`: each of the two headers
contributes its one-byte outer size delimiter plus its 9-byte body (one-byte
key-length delimiter, 3-byte key, 5-byte value). -/
theorem c9_binary_size_is_49 :
    entry49.binary_size = 49 ∧ 49 = 29 + (1 + (1 + 3 + 5)) + (1 + (1 + 3 + 5)) := by
  decide

/-- C4 (code bug evaluation): for the header with a 128-byte key (two-byte
key-length delimiter `0x80 0x01`), `read_at` with a 1-byte buffer at offset 1
writes `0x80` — the delimiter's **first** byte, because the source copies the
delimiter from its start regardless of the stage offset — whereas slicing the
one-shot `encode` output at `[1..2]` gives `0x01`. -/
theorem c4_read_at_delimiter_bug :
    Header.read_at h128 1 1 = [128] ∧ (h128.encode.drop 1).take 1 = [1] := by
  decide

/-- C1 (code bug evaluation): for the entry whose kv header is `h128` and step
size `s = 32`, the resumable-read protocol terminates with the claimed total
(`binary_size = 161` bytes) but the concatenation is **not** byte-identical to
`encode`: at index 32 the protocol re-emits the key-length delimiter's first
byte `0x80` where `encode` has its second byte `0x01`. -/
theorem c1_resumable_read_bug :
    readAllSteps e161 32 10 0 ≠ e161.encode ∧
    (readAllSteps e161 32 10 0).length = e161.binary_size ∧
    (readAllSteps e161 32 10 0).getD 32 0 = 128 ∧
    e161.encode.getD 32 0 = 1 := by
  decide

/-- C2 (code bug evaluation): the checksum trailer written for the §8 entry is
`00 00 00 00` — the little-endian CRC-32C of zero bytes, since the digest is
never updated — whereas the CRC-32C of the entry's 49 encoded bytes is the
non-zero `0x2F64E3B8`; and two entries with different encoded bytes get the
same trailer. -/
theorem c2_checksum_never_updated :
    JournalEntryContext.get_checksum entry49 = [0, 0, 0, 0] ∧
    crc32c entry49.encode = 0x2F64E3B8 ∧
    JournalEntryContext.get_checksum e161 = JournalEntryContext.get_checksum entry49 ∧
    entry49.encode ≠ e161.encode := by
  decide

/-- C7 (code bug evaluation): appending `e129` (binary size 129, so a two-byte
size delimiter `0x81 0x01`) to a fresh writer with buffer capacity 1 increases
the lifetime size counter by exactly
`length_delimiter_len(129) + 129 + 4 = 135`, but the bytes transferred toward
the sink are **not** `varint(129) ++ encode ++ trailer`: byte 1 of the stream
is `0x81` (the size delimiter's first byte again, copied from the delimiter's
start on re-entry) instead of `0x01`. -/
theorem c7_framing_delimiter_bug :
    (append_entry e129 200 writerCap1).sink ++ (append_entry e129 200 writerCap1).pending
      ≠ encodeVarint e129.binary_size ++ e129.encode
        ++ JournalEntryContext.get_checksum e129 ∧
    (append_entry e129 200 writerCap1).size
      = length_delimiter_len e129.binary_size + e129.binary_size + 4 ∧
    ((append_entry e129 200 writerCap1).sink
      ++ (append_entry e129 200 writerCap1).pending).getD 1 0 = 129 ∧
    (encodeVarint e129.binary_size ++ e129.encode
      ++ JournalEntryContext.get_checksum e129).getD 1 0 = 1 := by
  decide
